import Mathlib

namespace PlagDetect

/-!
Verification development for the plagiarism-detector pipeline.

The definitions below are a shallow embedding of the Python sources:
  tools/normalization.py          (tokenize, normalize, fingerprints_from_norm,
                                   jaccard, aggregate, main pairwise loop)
  tools/normalization_claude.py   (normalize_tokens, fingerprint_tokens,
                                   jaccard_similarity, aggregate_repo_similarity)
  tools_backup/normalization.py   (aggregate, here named aggregate_backup)

Strings are Lean strings, token sequences are lists of strings, fingerprint
sets are finite sets of strings, Python floats are modelled as rationals,
Python exceptions as Except values.  The SHA-1 digest is modelled as an
arbitrary function parameter so every theorem holds for every hash function.
-/

/-! ### Character helpers (ASCII, as in the regex character classes) -/

/-- The double-quote character. -/
def qD : Char := Char.ofNat 34

/-- The single-quote character. -/
def qS : Char := Char.ofNat 39

/-- The backtick character (template-literal delimiter). -/
def bT : Char := Char.ofNat 96

/-- The backslash character. -/
def bS : Char := Char.ofNat 92

/-- The newline character. -/
def nL : Char := Char.ofNat 10

def isDigitCh (c : Char) : Bool := 48 ≤ c.toNat && c.toNat ≤ 57

def isAsciiAlphaCh (c : Char) : Bool :=
  (65 ≤ c.toNat && c.toNat ≤ 90) || (97 ≤ c.toNat && c.toNat ≤ 122)

def isIdentStartCh (c : Char) : Bool := isAsciiAlphaCh c || c == '_'

def isIdentCh (c : Char) : Bool := isIdentStartCh c || isDigitCh c

/-- Python regex whitespace class over ASCII: space, tab, newline, CR, VT, FF. -/
def isSpaceCh (c : Char) : Bool :=
  c.toNat == 32 || c.toNat == 9 || c.toNat == 10 ||
  c.toNat == 13 || c.toNat == 11 || c.toNat == 12

/-! ### Keyword sets (tools/normalization.py, CONFIG section) -/

def JAVA_KEYWORDS : List String :=
  ["abstract","assert","boolean","break","byte","case","catch","char","class","const","continue",
   "default","do","double","else","enum","extends","final","finally","float","for","goto","if",
   "implements","import","instanceof","int","interface","long","native","new","package","private",
   "protected","public","return","short","static","strictfp","super","switch","synchronized",
   "this","throw","throws","transient","try","void","volatile","while","true","false","null"]

def JS_KEYWORDS : List String :=
  ["break","case","catch","class","const","continue","debugger","default","delete","do","else",
   "export","extends","finally","for","function","if","import","in","instanceof","let","new",
   "return","super","switch","this","throw","try","typeof","var","void","while","with","yield",
   "await","async","of","from","interface","implements","package","private","protected","public",
   "enum","type","as","any","never","unknown","readonly","global","namespace","declare","module"]

/-- `KEYWORDS = JAVA_KEYWORDS.union(JS_KEYWORDS)`; membership in the union is
membership in the concatenated list. -/
def KEYWORDS : List String := JAVA_KEYWORDS ++ JS_KEYWORDS

/-! ### Token classification used by `normalize` -/

/-- Python `tok.startswith(c) and tok.endswith(c)` for a one-character `c`. -/
def startsEndsWith (s : String) (c : Char) : Bool :=
  (s.data.head? == some c) && (s.data.getLast? == some c)

/-- The string-literal test of `normalize`: the token starts and ends with a
double quote, or with a single quote, or with a backtick. -/
def isStrTok (s : String) : Bool :=
  startsEndsWith s qD || startsEndsWith s qS || startsEndsWith s bT

/-- Python <| re.fullmatch of the number pattern: digits, or digits dot digits. -/
def isNumTok (s : String) : Bool :=
  let cs := s.data
  let d1 := cs.takeWhile isDigitCh
  if d1.isEmpty then false
  else
    match cs.drop d1.length with
    | [] => true
    | c :: rest2 => c == '.' && !rest2.isEmpty && rest2.all isDigitCh

/-- Python <| re.fullmatch of the identifier pattern. -/
def isIdentTok (s : String) : Bool :=
  match s.data with
  | [] => false
  | c :: rest => isIdentStartCh c && rest.all isIdentCh

/-! ### Normalizer (tools/normalization.py, `normalize`) -/

/-- The per-token loop of `normalize`: `idMap` is the Python dict as an
insertion-ordered association list, `nextId` the counter. -/
def normalizeAux (kw : List String) :
    List String → List (String × String) → Nat → List String × List (String × String)
  | [], idMap, _ => ([], idMap)
  | tok :: rest, idMap, nextId =>
    if isStrTok tok then
      let r := normalizeAux kw rest idMap nextId
      ("STR" :: r.1, r.2)
    else if kw.contains tok then
      let r := normalizeAux kw rest idMap nextId
      (tok :: r.1, r.2)
    else if isNumTok tok then
      let r := normalizeAux kw rest idMap nextId
      ("NUM" :: r.1, r.2)
    else if isIdentTok tok then
      match List.lookup tok idMap with
      | some v =>
        let r := normalizeAux kw rest idMap nextId
        (v :: r.1, r.2)
      | none =>
        let v := "ID" ++ toString nextId
        let r := normalizeAux kw rest (idMap ++ [(tok, v)]) (nextId + 1)
        (v :: r.1, r.2)
    else
      let r := normalizeAux kw rest idMap nextId
      (tok :: r.1, r.2)

/-- `normalize(tokens, keywords)`: returns the canonical sequence and the
identifier rename table. -/
def normalize (tokens : List String) (keywords : List String) :
    List String × List (String × String) :=
  normalizeAux keywords tokens [] 1

/-! ### Fingerprinting -/

/-- The shingle separator `"␟"`. -/
def sep : String := "␟"

/-- Python slice stop-index normalization: a negative stop counts from the end. -/
def pyStop (n : Nat) (stop : Int) : Nat :=
  if stop < 0 then ((n : Int) + stop).toNat else stop.toNat

/-- Python `l[i:stop]` for a nonnegative start index `i`. -/
def pySlice (l : List String) (i : Nat) (stop : Int) : List String :=
  (l.take (pyStop l.length stop)).drop i

/-- `fingerprints_from_norm(norm_tokens, k)` from tools/normalization.py:
for `i in range(max(0, n - k + 1))` hash the joined slice `norm[i:i+k]`. -/
def fingerprints_from_norm (hash : String → String) (norm : List String) (k : Int) :
    Finset String :=
  ((List.range (max 0 ((norm.length : Int) - k + 1)).toNat).map
    (fun i => hash (sep.intercalate (pySlice norm i ((i : Int) + k))))).toFinset

/-- `fingerprint_tokens(normalized_tokens, k)` from tools/normalization_claude.py:
rejects `k <= 0`, emits one fingerprint over the whole sequence when
`0 < n < k`, the empty set when `n = 0`, and the usual k-shingles otherwise. -/
def fingerprint_tokens (hash : String → String) (norm : List String) (k : Int) :
    Except String (Finset String) :=
  if k ≤ 0 then Except.error "k must be >= 1"
  else if (norm.length : Int) < k then
    if norm.length = 0 then Except.ok ∅
    else Except.ok {hash (sep.intercalate norm)}
  else Except.ok
    (((List.range ((norm.length : Int) - k + 1).toNat).map
      (fun i => hash (sep.intercalate (pySlice norm i ((i : Int) + k))))).toFinset)

/-! ### Jaccard similarity, both variants -/

/-- `jaccard(a, b)` from tools/normalization.py: both-empty gives `1.0`. -/
def jaccard (a b : Finset String) : ℚ :=
  if a = ∅ ∧ b = ∅ then 1
  else if a = ∅ ∨ b = ∅ then 0
  else if a ∪ b ≠ ∅ then ((a ∩ b).card : ℚ) / ((a ∪ b).card : ℚ) else 0

/-- `jaccard_similarity(set_a, set_b)` from tools/normalization_claude.py:
both-empty gives `0.0`. -/
def jaccard_similarity (a b : Finset String) : ℚ :=
  if a = ∅ ∧ b = ∅ then 0
  else if a = ∅ ∨ b = ∅ then 0
  else if 0 < (a ∪ b).card then ((a ∩ b).card : ℚ) / ((a ∪ b).card : ℚ) else 0

/-! ### Aggregation -/

/-- One entry of the per-file dictionaries handed to the similarity engine. -/
structure FileInfo where
  path : String
  fingerprints : Finset String
  norm_len : Nat
deriving DecidableEq

/-- The weight `max(1, info["norm_len"])`, as a rational. -/
def wt (f : FileInfo) : ℚ := ((max 1 f.norm_len : Nat) : ℚ)

/-- The best-match loop of `aggregate` in tools/normalization.py:
`best = max(best, jaccard(...))` starting from `0.0`. -/
def bestTools (x : Finset String) (repo : List FileInfo) : ℚ :=
  repo.foldl (fun best g => max best (jaccard x g.fingerprints)) 0

/-- One direction of `aggregate` in tools/normalization.py, including its
`if totw else 0.0` guard. -/
def directionalScore (ra rb : List FileInfo) : ℚ :=
  let totw := (ra.map wt).sum
  let sumw := (ra.map (fun f => bestTools f.fingerprints rb * wt f)).sum
  if totw ≠ 0 then sumw / totw else 0

/-- `aggregate(repoA, repoB)` from tools/normalization.py. -/
def aggregate (ra rb : List FileInfo) : ℚ :=
  (directionalScore ra rb + directionalScore rb ra) / 2

/-- The best-match loop of `aggregate_repo_similarity`:
`if sim > best_score: best_score = sim` starting from `0.0`. -/
def bestClaude (x : Finset String) (repo : List FileInfo) : ℚ :=
  repo.foldl
    (fun best g =>
      let sim := jaccard_similarity x g.fingerprints
      if best < sim then sim else best) 0

/-- `aggregate_repo_similarity(per_file_info_A, per_file_info_B)` from
tools/normalization_claude.py, with its empty-collection early return and
`total_weight > 0` guards. -/
def aggregate_repo_similarity (ra rb : List FileInfo) : ℚ :=
  if ra = [] ∨ rb = [] then 0
  else
    let totwA := (ra.map wt).sum
    let sumwA := (ra.map (fun f => bestClaude f.fingerprints rb * wt f)).sum
    let scoreA := if 0 < totwA then sumwA / totwA else 0
    let totwB := (rb.map wt).sum
    let sumwB := (rb.map (fun f => bestClaude f.fingerprints ra * wt f)).sum
    let scoreB := if 0 < totwB then sumwB / totwB else 0
    (scoreA + scoreB) / 2

/-- Python `max(...)` over the generator of jaccard scores in
tools_backup/normalization.py: raises ValueError on an empty sequence. -/
def maxJacBackup (x : Finset String) (repo : List FileInfo) : Except String ℚ :=
  match repo.map (fun g => jaccard x g.fingerprints) with
  | [] => Except.error "max() arg is an empty sequence"
  | h :: t => Except.ok (t.foldl max h)

/-- Effectful map used to embed the per-file loops of the backup aggregate. -/
def mapME (f : α → Except String β) : List α → Except String (List β)
  | [] => Except.ok []
  | x :: xs => do
    let y ← f x
    let ys ← mapME f xs
    pure (y :: ys)

/-- One direction of the backup `aggregate`: the loop body may raise (empty
`max`), and the final division `sumw / totw` has no guard, so `totw == 0`
raises ZeroDivisionError. -/
def dirBackup (ra rb : List FileInfo) : Except String ℚ := do
  let totw := (ra.map wt).sum
  let terms ← mapME (fun f => (maxJacBackup f.fingerprints rb).map (fun best => best * wt f)) ra
  let sumw := terms.sum
  if totw = 0 then Except.error "division by zero" else Except.ok (sumw / totw)

/-- `aggregate(repoA, repoB)` from tools_backup/normalization.py. -/
def aggregate_backup (ra rb : List FileInfo) : Except String ℚ := do
  let scoreA ← dirBackup ra rb
  let scoreB ← dirBackup rb ra
  Except.ok ((scoreA + scoreB) / 2)

/-- Whether an embedded Python computation raised. -/
def raised (e : Except String ℚ) : Bool :=
  match e with
  | Except.error _ => true
  | Except.ok _ => false

/-- The pairwise loop of `main` in tools/normalization.py: one jaccard score
per (A-file, B-file) combination. -/
def pairsJaccard (ra rb : List FileInfo) : List (String × String × ℚ) :=
  ra.flatMap (fun a => rb.map (fun b => (a.path, b.path, jaccard a.fingerprints b.fingerprints)))

/-! ### Spec-side aggregation formula (section 4.4 of the specification)

These definitions follow the specification text, not the source: best
(maximum) score of a file against the other collection, weighted sum over
weight sum per direction, arithmetic mean of the two directions.  They are
compared with the source-embedded `aggregate` functions in the theorems. -/

/-- Modelled from the spec: the best (maximum) score of one file against any
file of the other collection. -/
def bestMatchSpec (score : Finset String → Finset String → ℚ)
    (x : Finset String) (repo : List FileInfo) : ℚ :=
  (repo.map (fun g => score x g.fingerprints)).foldr max 0

/-- Modelled from the spec: directional aggregate, weighted sum of best
scores over the sum of weights `max(1, normCount)`. -/
def specDirectional (score : Finset String → Finset String → ℚ)
    (ra rb : List FileInfo) : ℚ :=
  (ra.map (fun f => bestMatchSpec score f.fingerprints rb * wt f)).sum / (ra.map wt).sum

/-- Modelled from the spec: arithmetic mean of the two directional
aggregates. -/
def specAggregate (score : Finset String → Finset String → ℚ)
    (ra rb : List FileInfo) : ℚ :=
  (specDirectional score ra rb + specDirectional score rb ra) / 2

/-! ### Tokenizer (tools/normalization.py, `token_pattern` and `tokenize`)

The regex alternation is embedded as a scanner that, at each position, tries
the alternatives in the pattern's order and consumes the first match; when
nothing matches the scanner advances one character, exactly like
`re.findall`.  Every branch of the alternation starts with a distinct
character class, so the Python backtracking engine behaves deterministically
and this scanner reproduces it. -/

/-- Length of the lazy block-comment body: characters up to and including the
first closing star-slash. -/
def bcClose : List Char → Option Nat
  | '*' :: '/' :: _ => some 2
  | _ :: rest => (bcClose rest).map (fun n => n + 1)
  | [] => none

/-- Alternative 1 of the pattern: a slash-star comment closed by star-slash
(the lazy body stops at the first closer); fails when unterminated. -/
def matchBlockComment : List Char → Option Nat
  | '/' :: '*' :: rest => (bcClose rest).map (fun n => n + 2)
  | _ => none

/-- Alternative 2: a double-slash comment running to the end of the line. -/
def matchLineComment : List Char → Option Nat
  | '/' :: '/' :: rest => some (2 + (rest.takeWhile (fun c => !(c == nL))).length)
  | _ => none

/-- Body of a template literal after the opening backtick: an escape pair
(backslash followed by any non-newline character) or any character other
than backslash and backtick, until the closing backtick. -/
def tmplAux : List Char → Option Nat
  | [] => none
  | c :: [] => if c == bT then some 1 else none
  | c :: d :: rest2 =>
    if c == bT then some 1
    else if c == bS then
      (if d == nL then none else (tmplAux rest2).map (fun n => n + 2))
    else (tmplAux (d :: rest2)).map (fun n => n + 1)

/-- Alternative 3: a backtick-delimited template literal. -/
def matchTemplate : List Char → Option Nat
  | c :: rest => if c == bT then (tmplAux rest).map (fun n => n + 1) else none
  | [] => none

/-- Body of a quoted string after the opening quote `q`: characters other
than the quote, backslash and newline, or escape pairs, until the closing
quote; fails at a newline or at end of input. -/
def strAux (q : Char) : List Char → Option Nat
  | [] => none
  | c :: [] => if c == q then some 1 else none
  | c :: d :: rest2 =>
    if c == q then some 1
    else if c == nL then none
    else if c == bS then
      (if d == nL then none else (strAux q rest2).map (fun n => n + 2))
    else (strAux q (d :: rest2)).map (fun n => n + 1)

/-- Alternatives 4 and 5: a string delimited by the quote character `q`. -/
def matchString (q : Char) : List Char → Option Nat
  | c :: rest => if c == q then (strAux q rest).map (fun n => n + 1) else none
  | [] => none

/-- Alternative 6: an identifier, by maximal munch. -/
def matchIdent : List Char → Option Nat
  | c :: rest => if isIdentStartCh c then some (1 + (rest.takeWhile isIdentCh).length) else none
  | [] => none

/-- Alternative 7: a decimal number (digits dot digits) or an integer. -/
def matchNumber (cs : List Char) : Option Nat :=
  let d1 := cs.takeWhile isDigitCh
  if d1.isEmpty then none
  else
    match cs.drop d1.length with
    | c :: rest2 =>
      if c == '.' then
        let d2 := rest2.takeWhile isDigitCh
        if d2.isEmpty then some d1.length else some (d1.length + 1 + d2.length)
      else some d1.length
    | [] => some d1.length

/-- The two-character operators of alternative 8. -/
def opsList : List (Char × Char) :=
  [('=', '='), ('!', '='), ('<', '='), ('>', '='), ('+', '+'), ('-', '-'),
   ('&', '&'), ('|', '|'), ('-', '>'), ('=', '>'), (':', '=')]

/-- Alternative 8: a two-character operator. -/
def matchOps : List Char → Option Nat
  | a :: b :: _ => if opsList.contains (a, b) then some 2 else none
  | _ => none

/-- The single-character symbol class of alternative 9. -/
def symbolChars : List Char := "~!%^&*()+=\x7b\x7d[]|\\:;\x22\x27<>,.?/-".data

/-- Alternative 9: a single-character symbol. -/
def matchSymbol : List Char → Option Nat
  | c :: _ => if symbolChars.contains c then some 1 else none
  | [] => none

/-- First matching alternative of `token_pattern`, in the pattern's order. -/
def firstMatch (cs : List Char) : Option Nat :=
  (matchBlockComment cs).orElse (fun _ =>
  (matchLineComment cs).orElse (fun _ =>
  (matchTemplate cs).orElse (fun _ =>
  (matchString qD cs).orElse (fun _ =>
  (matchString qS cs).orElse (fun _ =>
  (matchIdent cs).orElse (fun _ =>
  (matchNumber cs).orElse (fun _ =>
  (matchOps cs).orElse (fun _ =>
  matchSymbol cs))))))))

/-- One `findall` step: the matched token text and its length. -/
def step (cs : List Char) : Option (String × Nat) :=
  (firstMatch cs).map (fun n => (String.mk (cs.take n), n))

/-- The filter regex: optional whitespace then a double slash. -/
def swsAux : List Char → Bool
  | '/' :: '/' :: _ => true
  | c :: rest => isSpaceCh c && swsAux rest
  | [] => false

/-- The comment filter of `tokenize` (`_comment_re.match`): a token starting
with slash-star, or with optional whitespace then a double slash. -/
def isCommentTok (s : String) : Bool :=
  match s.data with
  | '/' :: '*' :: _ => true
  | cs => swsAux cs

/-- The scanning loop of `re.findall` plus the comment filter of `tokenize`.
The fuel argument only certifies termination: every match consumes at least
one character (`max 1 n` records that invariant), so fuel equal to the input
length never runs out. -/
def tokenizeAux : Nat → List Char → List String
  | 0, _ => []
  | _ + 1, [] => []
  | fuel + 1, c :: rest =>
    match step (c :: rest) with
    | some (tok, n) =>
      if isCommentTok tok then tokenizeAux fuel ((c :: rest).drop (max 1 n))
      else tok :: tokenizeAux fuel ((c :: rest).drop (max 1 n))
    | none => tokenizeAux fuel rest

/-- `tokenize(code)` from tools/normalization.py. -/
def tokenize (code : String) : List String :=
  tokenizeAux code.data.length code.data

/-! ### Identifier renaming (for the rename-invariance property) -/

/-- A token that `normalize` classifies as an identifier: not a string
literal, not a keyword, not a number, and matching the identifier grammar
(the tests in the order the source applies them). -/
def classIdent (kw : List String) (s : String) : Bool :=
  !isStrTok s && !(kw.contains s) && !isNumTok s && isIdentTok s

/-- Apply a renaming to the identifier tokens of a sequence, leaving every
other token unchanged. -/
def renameTok (kw : List String) (rho : String → String) (s : String) : String :=
  if classIdent kw s then rho s else s

/-! ### Basic lemmas -/

lemma normalizeAux_length (kw : List String) (tokens : List String) :
    ∀ (m : List (String × String)) (n : Nat),
      (normalizeAux kw tokens m n).1.length = tokens.length := by
  induction tokens with
  | nil => intro m n; rfl
  | cons tok rest ih =>
    intro m n
    simp only [normalizeAux]
    repeat' split
    all_goals simp [ih]

/-! ### Claim theorems, first group -/

/-- Claim C9 (confirmed): `normalize` emits exactly one canonical token per
input token, so the canonical sequence has the same length as the input and
the reported raw and normalized token counts coincide. -/
theorem c9_normalize_preserves_length (tokens keywords : List String) :
    (normalize tokens keywords).1.length = tokens.length :=
  normalizeAux_length keywords tokens [] 1

/-- Claim C10 (confirmed): a token that is a lone double quote or a lone
single quote both starts and ends with that quote character, so `normalize`
classifies it as a string literal and emits `STR`; in particular the lone
quote that `tokenize` emits from an unterminated string normalizes to `STR`. -/
theorem c10_lone_quote_normalizes_to_STR :
    (∀ rest : List String,
      (normalize ("\x22" :: rest) KEYWORDS).1 = "STR" :: (normalize rest KEYWORDS).1) ∧
    (∀ rest : List String,
      (normalize ("\x27" :: rest) KEYWORDS).1 = "STR" :: (normalize rest KEYWORDS).1) ∧
    (normalize (tokenize "\x22abc") KEYWORDS).1 = ["STR", "ID1"] := by
  refine ⟨fun rest => ?_, fun rest => ?_, by decide⟩
  · have h : isStrTok "\x22" = true := by decide
    simp [normalize, normalizeAux, h]
  · have h : isStrTok "\x27" = true := by decide
    simp [normalize, normalizeAux, h]

/-- Claim C3 (confirmed): the two Jaccard implementations agree whenever at
least one of the two fingerprint sets is non-empty; on two empty sets
`jaccard` returns 1 and `jaccard_similarity` returns 0. -/
theorem c3_jaccard_variants_agree :
    (∀ a b : Finset String, a ≠ ∅ ∨ b ≠ ∅ → jaccard a b = jaccard_similarity a b) ∧
    jaccard (∅ : Finset String) ∅ = 1 ∧ jaccard_similarity (∅ : Finset String) ∅ = 0 := by
  refine ⟨?_, by simp [jaccard], by simp [jaccard_similarity]⟩
  intro a b h
  unfold jaccard jaccard_similarity
  have hne : ¬(a = ∅ ∧ b = ∅) := by tauto
  rw [if_neg hne, if_neg hne]
  by_cases he : a = ∅ ∨ b = ∅
  · rw [if_pos he, if_pos he]
  · rw [if_neg he, if_neg he]
    push_neg at he
    have hu : a ∪ b ≠ ∅ := by
      intro hu
      exact he.1 (Finset.union_eq_empty.mp hu).1
    have hc : 0 < (a ∪ b).card :=
      Finset.card_pos.mpr (Finset.nonempty_iff_ne_empty.mpr hu)
    rw [if_pos hu, if_pos hc]

/-- Witness for C3 at a concrete pair with one non-empty side. -/
theorem c3_witness :
    (({"h"} : Finset String) ≠ ∅ ∨ (∅ : Finset String) ≠ ∅) ∧
    jaccard {"h"} ∅ = jaccard_similarity {"h"} ∅ :=
  ⟨Or.inl (Finset.singleton_ne_empty "h"),
   c3_jaccard_variants_agree.1 {"h"} ∅ (Or.inl (Finset.singleton_ne_empty "h"))⟩

lemma ratio_bounds (a b : Finset String) :
    0 ≤ ((a ∩ b).card : ℚ) / ((a ∪ b).card : ℚ) ∧
    ((a ∩ b).card : ℚ) / ((a ∪ b).card : ℚ) ≤ 1 := by
  constructor
  · exact div_nonneg (by positivity) (by positivity)
  · by_cases hu : (a ∪ b).card = 0
    · simp [hu]
    · have hpos : (0 : ℚ) < ((a ∪ b).card : ℚ) := by
        exact_mod_cast Nat.pos_of_ne_zero hu
      rw [div_le_one hpos]
      exact_mod_cast Finset.card_le_card Finset.inter_subset_union

/-- Claim C5 (confirmed): both Jaccard implementations return values in the
interval from 0 to 1 and are symmetric in their two arguments. -/
theorem c5_jaccard_bounds_and_symmetry (X Y : Finset String) :
    (0 ≤ jaccard X Y ∧ jaccard X Y ≤ 1 ∧ jaccard X Y = jaccard Y X) ∧
    (0 ≤ jaccard_similarity X Y ∧ jaccard_similarity X Y ≤ 1 ∧
      jaccard_similarity X Y = jaccard_similarity Y X) := by
  have hsym1 : jaccard X Y = jaccard Y X := by
    by_cases hX : X = ∅ <;> by_cases hY : Y = ∅ <;>
      simp [jaccard, hX, hY]
    rw [Finset.union_comm Y X, Finset.inter_comm Y X]
  have hsym2 : jaccard_similarity X Y = jaccard_similarity Y X := by
    by_cases hX : X = ∅ <;> by_cases hY : Y = ∅ <;>
      simp [jaccard_similarity, hX, hY]
    rw [Finset.union_comm Y X, Finset.inter_comm Y X]
  refine ⟨⟨?_, ?_, hsym1⟩, ?_, ?_, hsym2⟩
  · unfold jaccard
    split_ifs
    · norm_num
    · norm_num
    · exact (ratio_bounds X Y).1
    · norm_num
  · unfold jaccard
    split_ifs
    · norm_num
    · norm_num
    · exact (ratio_bounds X Y).2
    · norm_num
  · unfold jaccard_similarity
    split_ifs
    · norm_num
    · norm_num
    · exact (ratio_bounds X Y).1
    · norm_num
  · unfold jaccard_similarity
    split_ifs
    · norm_num
    · norm_num
    · exact (ratio_bounds X Y).2
    · norm_num

/-- Claim C6 (corrected): for every `k <= 0`, `fingerprint_tokens` raises
ValueError before producing a fingerprint set, but `fingerprints_from_norm`
performs no validation at all: for `k = 0` on a non-empty sequence it
returns the singleton fingerprint of the empty shingle. -/
theorem c6_amended (hash : String → String) (norm : List String) (k : Int)
    (hk : k ≤ 0) :
    fingerprint_tokens hash norm k = Except.error "k must be >= 1" ∧
    fingerprints_from_norm (fun s => s) ["u", "v", "w"] 0 = {""} := by
  constructor
  · simp [fingerprint_tokens, hk]
  · decide

/-- Witness for C6 at the concrete configuration `k = 0`. -/
theorem c6_amended_witness :
    (0 : Int) ≤ 0 ∧
    fingerprint_tokens (fun s => s) ["a"] 0 = Except.error "k must be >= 1" :=
  ⟨le_refl 0, (c6_amended (fun s => s) ["a"] 0 (le_refl 0)).1⟩

/-- Counterexample for C6 as stated: at `k = 0`, `fingerprints_from_norm`
does not raise; it returns a (non-empty) fingerprint set. -/
theorem c6_counterexample :
    fingerprints_from_norm (fun s => s) ["x", "y", "z"] 0 = {""} := by decide

/-- Claim C1 (corrected): for `k >= 1`, `fingerprint_tokens` obeys the full
shingle-count law (empty set for `n = 0`, exactly one fingerprint for
`0 < n < k`, at most `n - k + 1` fingerprints for `n >= k`), while
`fingerprints_from_norm` returns the empty set — not one fingerprint — in
the short-sequence case `0 < n < k`, and agrees on the other two cases. -/
theorem c1_amended (hash : String → String) (norm : List String) (k : Int)
    (hk : 1 ≤ k) :
    (norm.length = 0 →
      fingerprint_tokens hash norm k = Except.ok ∅ ∧
      fingerprints_from_norm hash norm k = ∅) ∧
    (0 < norm.length → (norm.length : Int) < k →
      (∃ fps, fingerprint_tokens hash norm k = Except.ok fps ∧ fps.card = 1) ∧
      fingerprints_from_norm hash norm k = ∅) ∧
    (k ≤ (norm.length : Int) →
      (∃ fps, fingerprint_tokens hash norm k = Except.ok fps ∧
        (fps.card : Int) ≤ (norm.length : Int) - k + 1) ∧
      ((fingerprints_from_norm hash norm k).card : Int) ≤ (norm.length : Int) - k + 1) := by
  have hk0 : ¬(k ≤ 0) := by omega
  refine ⟨?_, ?_, ?_⟩
  · intro h0
    constructor
    · have hlt : (norm.length : Int) < k := by omega
      simp [fingerprint_tokens, hk0, hlt, h0]
    · unfold fingerprints_from_norm
      rw [max_eq_left (by omega : (norm.length : Int) - k + 1 ≤ 0)]
      simp
  · intro hpos hlt
    constructor
    · refine ⟨{hash (sep.intercalate norm)}, ?_, Finset.card_singleton _⟩
      have h0 : ¬(norm.length = 0) := by omega
      simp [fingerprint_tokens, hk0, hlt, h0]
    · unfold fingerprints_from_norm
      rw [max_eq_left (by omega : (norm.length : Int) - k + 1 ≤ 0)]
      simp
  · intro hge
    have hnlt : ¬((norm.length : Int) < k) := by omega
    constructor
    · refine ⟨((List.range ((norm.length : Int) - k + 1).toNat).map
          (fun i => hash (sep.intercalate (pySlice norm i ((i : Int) + k))))).toFinset, ?_, ?_⟩
      · simp [fingerprint_tokens, hk0, hnlt]
      · have hb := List.toFinset_card_le
          ((List.range ((norm.length : Int) - k + 1).toNat).map
            (fun i => hash (sep.intercalate (pySlice norm i ((i : Int) + k)))))
        simp only [List.length_map, List.length_range] at hb
        omega
    · unfold fingerprints_from_norm
      rw [max_eq_right (by omega : (0 : Int) ≤ (norm.length : Int) - k + 1)]
      have hb := List.toFinset_card_le
        ((List.range ((norm.length : Int) - k + 1).toNat).map
          (fun i => hash (sep.intercalate (pySlice norm i ((i : Int) + k)))))
      simp only [List.length_map, List.length_range] at hb
      omega

/-- Witness for C1 in the ordinary case `k = 2 <= n = 3`. -/
theorem c1_amended_witness :
    (1 : Int) ≤ 2 ∧
    ((fingerprints_from_norm (fun s => s) ["a", "b", "c"] 2).card : Int) ≤
      ((["a", "b", "c"] : List String).length : Int) - 2 + 1 := by
  refine ⟨by norm_num, ?_⟩
  exact ((c1_amended (fun s => s) ["a", "b", "c"] 2 (by norm_num)).2.2 (by norm_num)).2

/-- Counterexample for C1 as stated: a one-token sequence with `k = 5` gets
an empty fingerprint set from `fingerprints_from_norm`, not exactly one
fingerprint. -/
theorem c1_counterexample :
    fingerprints_from_norm (fun s => s) ["ID1"] 5 = ∅ ∧
    (fingerprints_from_norm (fun s => s) ["ID1"] 5).card ≠ 1 := by decide

/-! ### Claim C7: empty collections -/

lemma sum_map_zero (l : List FileInfo) (g : FileInfo → ℚ) (h : ∀ x, g x = 0) :
    (l.map g).sum = 0 := by
  induction l with
  | nil => rfl
  | cons a t ih => simp [h, ih]

lemma flatMap_nil_fun (l : List FileInfo) :
    l.flatMap (fun _ => ([] : List (String × String × ℚ))) = [] := by
  induction l with
  | nil => rfl
  | cons a t ih => simp [ih]

lemma directionalScore_nil_left (rb : List FileInfo) :
    directionalScore [] rb = 0 := by
  simp [directionalScore]

lemma directionalScore_nil_right (ra : List FileInfo) :
    directionalScore ra [] = 0 := by
  unfold directionalScore
  have hz : (ra.map (fun f => bestTools f.fingerprints [] * wt f)).sum = 0 :=
    sum_map_zero _ _ (fun f => by simp [bestTools])
  rw [hz]
  by_cases htot : (ra.map wt).sum = 0
  · simp [htot]
  · simp [htot]

lemma aggregate_backup_raises_left (rb : List FileInfo) :
    raised (aggregate_backup [] rb) = true := rfl

lemma aggregate_backup_raises_right (ra : List FileInfo) :
    raised (aggregate_backup ra []) = true := by
  cases ra with
  | nil => rfl
  | cons a t => rfl

/-- Claim C7 (corrected): when either collection is empty the pairwise result
list is empty and the `aggregate` of tools/normalization.py completes with
the neutral value 0, but the `aggregate` of tools_backup/normalization.py
raises instead: ZeroDivisionError when collection A is empty, ValueError
from `max()` over an empty sequence when only collection B is empty. -/
theorem c7_amended (ra rb : List FileInfo) (h : ra = [] ∨ rb = []) :
    pairsJaccard ra rb = [] ∧ aggregate ra rb = 0 ∧
    raised (aggregate_backup ra rb) = true := by
  rcases h with h | h
  · subst h
    exact ⟨rfl, by simp [aggregate, directionalScore_nil_left, directionalScore_nil_right],
      aggregate_backup_raises_left rb⟩
  · subst h
    refine ⟨?_, ?_, aggregate_backup_raises_right ra⟩
    · simp [pairsJaccard, flatMap_nil_fun]
    · simp [aggregate, directionalScore_nil_left, directionalScore_nil_right]

/-- Witness for C7 with an empty collection A and a one-file collection B. -/
theorem c7_witness :
    (([] : List FileInfo) = [] ∨ ([⟨"b", {"h"}, 2⟩] : List FileInfo) = []) ∧
    pairsJaccard [] [⟨"b", {"h"}, 2⟩] = [] ∧
    aggregate [] [⟨"b", {"h"}, 2⟩] = 0 ∧
    raised (aggregate_backup [] [⟨"b", {"h"}, 2⟩]) = true := by
  have h := c7_amended [] [⟨"b", {"h"}, 2⟩] (Or.inl rfl)
  exact ⟨Or.inl rfl, h.1, h.2.1, h.2.2⟩

/-- Counterexample for C7 as stated: on an empty collection A the backup
aggregate raises ZeroDivisionError instead of completing. -/
theorem c7_counterexample :
    aggregate_backup [] [⟨"g", {"x"}, 1⟩] = Except.error "division by zero" := rfl

/-! ### Claim C8: unterminated strings and comments -/

lemma tokenizeAux_length_le (fuel : Nat) :
    ∀ cs : List Char, (tokenizeAux fuel cs).length ≤ cs.length := by
  induction fuel with
  | zero => intro cs; simp [tokenizeAux]
  | succ f ih =>
    intro cs
    match cs with
    | [] => simp [tokenizeAux]
    | c :: rest =>
      simp only [tokenizeAux]
      split
      · rename_i tok n heq
        have hle := ih ((c :: rest).drop (max 1 n))
        have hdrop : ((c :: rest).drop (max 1 n)).length ≤ rest.length := by
          simp only [List.length_drop, List.length_cons]
          omega
        have h2 := le_trans hle hdrop
        split
        · simp only [List.length_cons]
          omega
        · simp only [List.length_cons]
          omega
      · exact le_trans (ih rest) (by simp)

/-- Claim C8 (corrected): the tokenizer is total — it terminates on every
input, emitting at most one token per character — but it does not treat an
unterminated construct as a single open token: the regex alternatives for a
block comment and for a string require their closing delimiter, so the
opening delimiter falls through to the one-character symbol class and the
interior is tokenized by the ordinary rules.  An unterminated comment
therefore does contribute tokens, and an unterminated string is not one
string token. -/
theorem c8_amended :
    (∀ code : String, (tokenize code).length ≤ code.data.length) ∧
    tokenize "/* a" = ["/", "*", "a"] ∧
    tokenize "\x22ab" = ["\x22", "ab"] := by
    exact ⟨fun code => tokenizeAux_length_le _ _, by decide, by decide⟩

/-- Counterexample for C8 as stated: the input consisting of an unterminated
block comment yields tokens (the claim says it must yield none), and the
input consisting of an unterminated string does not yield the single open
string token. -/
theorem c8_counterexample :
    tokenize "/* a" ≠ [] ∧ tokenize "\x22a" ≠ ["\x22a"] := by decide

/-! ### Claim C4: the aggregate formula -/

lemma foldr_max_init (a h : ℚ) (t : List ℚ) :
    t.foldr max (max a h) = max h (t.foldr max a) := by
  induction t with
  | nil => simp [max_comm]
  | cons x xs ih =>
    simp only [List.foldr_cons, ih]
    rw [max_left_comm]

lemma foldl_max_eq_foldr_max (l : List ℚ) :
    ∀ a, l.foldl max a = l.foldr max a := by
  induction l with
  | nil => intro a; rfl
  | cons h t ih =>
    intro a
    simp only [List.foldl_cons, List.foldr_cons]
    rw [ih (max a h), foldr_max_init]

lemma bestTools_eq_spec (x : Finset String) (repo : List FileInfo) :
    bestTools x repo = bestMatchSpec jaccard x repo := by
  unfold bestTools bestMatchSpec
  rw [← foldl_max_eq_foldr_max, List.foldl_map]

lemma bestClaude_eq_spec (x : Finset String) (repo : List FileInfo) :
    bestClaude x repo = bestMatchSpec jaccard_similarity x repo := by
  unfold bestClaude bestMatchSpec
  have hfun : (fun (best : ℚ) (g : FileInfo) =>
      let sim := jaccard_similarity x g.fingerprints
      if best < sim then sim else best) =
      (fun (best : ℚ) (g : FileInfo) => max best (jaccard_similarity x g.fingerprints)) := by
    funext best g
    rcases le_or_lt (jaccard_similarity x g.fingerprints) best with h | h
    · simp only []
      rw [if_neg (not_lt.mpr h), max_eq_left h]
    · simp only []
      rw [if_pos h, max_eq_right (le_of_lt h)]
  rw [hfun, ← foldl_max_eq_foldr_max, List.foldl_map]

lemma wt_pos (f : FileInfo) : 0 < wt f := by
  unfold wt
  exact_mod_cast Nat.lt_of_lt_of_le Nat.zero_lt_one (Nat.le_max_left 1 f.norm_len)

lemma wsum_pos (ra : List FileInfo) (h : ra ≠ []) : 0 < (ra.map wt).sum := by
  apply List.sum_pos
  · intro x hx
    obtain ⟨f, _, rfl⟩ := List.mem_map.mp hx
    exact wt_pos f
  · simpa [List.map_eq_nil_iff] using h

lemma directionalScore_eq_spec (ra rb : List FileInfo) (ha : ra ≠ []) :
    directionalScore ra rb = specDirectional jaccard ra rb := by
  unfold directionalScore specDirectional
  simp only [bestTools_eq_spec]
  rw [if_pos (ne_of_gt (wsum_pos ra ha))]

/-- Claim C4 (confirmed): for non-empty collections, both aggregate
implementations equal the specification formula — the arithmetic mean of the
two directional weighted best-match aggregates, each implementation
instantiated with its own Jaccard variant. -/
theorem c4_aggregate_matches_spec (ra rb : List FileInfo)
    (ha : ra ≠ []) (hb : rb ≠ []) :
    aggregate ra rb = specAggregate jaccard ra rb ∧
    aggregate_repo_similarity ra rb = specAggregate jaccard_similarity ra rb := by
  constructor
  · unfold aggregate specAggregate
    rw [directionalScore_eq_spec ra rb ha, directionalScore_eq_spec rb ra hb]
  · unfold aggregate_repo_similarity specAggregate specDirectional
    rw [if_neg (by simp [ha, hb])]
    simp only [bestClaude_eq_spec]
    rw [if_pos (wsum_pos ra ha), if_pos (wsum_pos rb hb)]

/-- Witness for C4 on a concrete pair of one-file collections. -/
theorem c4_witness :
    ([⟨"a", {"h1"}, 3⟩] : List FileInfo) ≠ [] ∧
    ([⟨"b", {"h1", "h2"}, 4⟩] : List FileInfo) ≠ [] ∧
    aggregate [⟨"a", {"h1"}, 3⟩] [⟨"b", {"h1", "h2"}, 4⟩] =
      specAggregate jaccard [⟨"a", {"h1"}, 3⟩] [⟨"b", {"h1", "h2"}, 4⟩] ∧
    aggregate_repo_similarity [⟨"a", {"h1"}, 3⟩] [⟨"b", {"h1", "h2"}, 4⟩] =
      specAggregate jaccard_similarity [⟨"a", {"h1"}, 3⟩] [⟨"b", {"h1", "h2"}, 4⟩] := by
  have h := c4_aggregate_matches_spec [⟨"a", {"h1"}, 3⟩] [⟨"b", {"h1", "h2"}, 4⟩]
    (List.cons_ne_nil _ _) (List.cons_ne_nil _ _)
  exact ⟨List.cons_ne_nil _ _, List.cons_ne_nil _ _, h.1, h.2⟩

/-! ### Claim C2: rename invariance -/

lemma lookup_mapKeys (kw : List String) (rho : String → String)
    (hinj : ∀ s t, classIdent kw s = true → classIdent kw t = true → rho s = rho t → s = t)
    (tok : String) (htok : classIdent kw tok = true) :
    ∀ m : List (String × String), (∀ p ∈ m, classIdent kw p.1 = true) →
      List.lookup (rho tok) (m.map (fun p => (rho p.1, p.2))) = List.lookup tok m := by
  intro m
  induction m with
  | nil => intro _; rfl
  | cons p t ih =>
    intro hkeys
    obtain ⟨k, v⟩ := p
    have hk : classIdent kw k = true := hkeys (k, v) (List.mem_cons_self _ _)
    simp only [List.map_cons, List.lookup]
    by_cases heq : tok = k
    · subst heq
      simp
    · have hne : rho tok ≠ rho k := fun h => heq (hinj _ _ htok hk h)
      simp only [beq_false_of_ne hne, beq_false_of_ne heq]
      exact ih fun q hq => hkeys q (List.mem_cons_of_mem _ hq)

lemma normalizeAux_rename (kw : List String) (rho : String → String)
    (hmap : ∀ s, classIdent kw s = true → classIdent kw (rho s) = true)
    (hinj : ∀ s t, classIdent kw s = true → classIdent kw t = true → rho s = rho t → s = t) :
    ∀ (tokens : List String) (m : List (String × String)) (n : Nat),
      (∀ p ∈ m, classIdent kw p.1 = true) →
      (normalizeAux kw (tokens.map (renameTok kw rho)) (m.map (fun p => (rho p.1, p.2))) n).1 =
        (normalizeAux kw tokens m n).1 := by
  intro tokens
  induction tokens with
  | nil => intro m n _; rfl
  | cons tok rest ih =>
    intro m n hkeys
    by_cases hcl : classIdent kw tok = true
    · -- the token is a classified identifier, so it is renamed to rho tok
      have hmapped := hmap tok hcl
      have h1 := hcl
      simp only [classIdent, Bool.and_eq_true, Bool.not_eq_true'] at h1
      obtain ⟨⟨⟨h1s, h1k⟩, h1n⟩, h1i⟩ := h1
      have h2 := hmapped
      simp only [classIdent, Bool.and_eq_true, Bool.not_eq_true'] at h2
      obtain ⟨⟨⟨h2s, h2k⟩, h2n⟩, h2i⟩ := h2
      have hrn : renameTok kw rho tok = rho tok := by simp [renameTok, hcl]
      simp only [List.map_cons, hrn, normalizeAux, h1s, h1k, h1n, h1i,
        h2s, h2k, h2n, h2i, Bool.false_eq_true, if_false, if_true]
      rw [lookup_mapKeys kw rho hinj tok hcl m hkeys]
      cases hl : List.lookup tok m with
      | some v => simp [ih m n hkeys]
      | none =>
        have hkeys2 : ∀ p ∈ m ++ [(tok, "ID" ++ toString n)], classIdent kw p.1 = true := by
          intro p hp
          rcases List.mem_append.mp hp with hp | hp
          · exact hkeys p hp
          · rcases List.mem_singleton.mp hp with rfl
            exact hcl
        have hih := ih (m ++ [(tok, "ID" ++ toString n)]) (n + 1) hkeys2
        rw [List.map_append] at hih
        simp only [List.map_cons, List.map_nil] at hih
        simp [hih]
    · -- any other token is left unchanged by the renaming
      have hrn : renameTok kw rho tok = tok := by simp [renameTok, hcl]
      simp only [List.map_cons, hrn, normalizeAux]
      cases hs : isStrTok tok with
      | true => simp [hs, ih m n hkeys]
      | false =>
        cases hkw : kw.contains tok with
        | true => simp [hs, hkw, ih m n hkeys]
        | false =>
          cases hnum : isNumTok tok with
          | true => simp [hs, hkw, hnum, ih m n hkeys]
          | false =>
            cases hid : isIdentTok tok with
            | true =>
              refine absurd ?_ hcl
              unfold classIdent
              rw [hs, hkw, hnum, hid]
              rfl
            | false => simp [hs, hkw, hnum, hid, ih m n hkeys]

/-- Claim C2 (confirmed): normalizing a token sequence and normalizing its
image under an injective renaming of identifier tokens (identifiers mapped
to identifier tokens that are not keywords, numbers or string literals)
produce the same canonical sequence. -/
theorem c2_rename_invariance (kw : List String) (rho : String → String)
    (hmap : ∀ s, classIdent kw s = true → classIdent kw (rho s) = true)
    (hinj : ∀ s t, classIdent kw s = true → classIdent kw t = true → rho s = rho t → s = t)
    (tokens : List String) :
    (normalize (tokens.map (renameTok kw rho)) kw).1 = (normalize tokens kw).1 :=
  normalizeAux_rename kw rho hmap hinj tokens [] 1 (by simp)

/-- The renaming that swaps the identifiers `x` and `y`. -/
def swapXY (s : String) : String :=
  if s = "x" then "y" else if s = "y" then "x" else s

/-- Witness for C2: swapping the identifiers `x` and `y` in a concrete token
sequence leaves the canonical sequence unchanged. -/
theorem c2_witness :
    (normalize (["if", "x", "==", "y", "x"].map (renameTok KEYWORDS swapXY)) KEYWORDS).1 =
      (normalize ["if", "x", "==", "y", "x"] KEYWORDS).1 := by
  have hmap : ∀ s, classIdent KEYWORDS s = true → classIdent KEYWORDS (swapXY s) = true := by
    intro s hs
    unfold swapXY
    split_ifs with h1 h2
    · decide
    · decide
    · exact hs
  have hinj : ∀ s t, classIdent KEYWORDS s = true → classIdent KEYWORDS t = true →
      swapXY s = swapXY t → s = t := by
    intro s t _ _ heq
    unfold swapXY at heq
    split_ifs at heq <;> simp_all
  exact c2_rename_invariance KEYWORDS swapXY hmap hinj ["if", "x", "==", "y", "x"]

end PlagDetect
